import Mathlib

/-!
# ur_driver connector: frame reader, command queue and connection lifecycle

A shallow embedding of `src/ur_driver/src/connector.cpp`
(`Connector::addCommand`, `connect`, `disconnect`, `readSocketWorker`,
`writeSocketWorker`) together with the properties of the length header,
the I/O bit table, the command queue and the start/stop transitions.

Conventions of the embedding:

* bytes are natural numbers below 256; 32-bit words are natural numbers
  below `2^32` (two's complement pattern for `int`);
* the socket is a value holding the descriptor state and the events the
  peer will deliver; every call made on it and every listener notification
  is appended to the connector's `trace`;
* what `connector.h` declares (port constants, `Packet_port30002`) is not
  part of the sources and is taken as a parameter `ConnectorH`.
-/

namespace ur_driver

/-! ## The 4-byte length header (connector.cpp lines 261-284) -/

/-- Integral promotion of a `char` holding byte `b` to `int`, with `char`
signed: the 32-bit two's complement pattern of the sign-extended value. -/
def charToInt (b : Nat) : Nat :=
  if b < 128 then b else 0xFFFFFF00 + b

/-- Left shift `x << k` on a 32-bit word. -/
def shl32 (x k : Nat) : Nat :=
  (x * 2 ^ k) % 2 ^ 32

/-- 32-bit byte swap: `be32toh` on a little-endian host. -/
def be32toh (x : Nat) : Nat :=
  (x % 256) * 2 ^ 24 + (x / 2 ^ 8 % 256) * 2 ^ 16 + (x / 2 ^ 16 % 256) * 2 ^ 8 + (x / 2 ^ 24 % 256)

/-- Line 283: the word assembled from `dataPackageSize[0..3]`,
`(d[3] << 24) | (d[2] << 16) | (d[1] << 8) | d[0]`, converted to `uint32_t`. -/
def rawPackageSize (d0 d1 d2 d3 : Nat) : Nat :=
  shl32 (charToInt d3) 24 ||| shl32 (charToInt d2) 16 ||| shl32 (charToInt d1) 8 ||| charToInt d0

/-- Lines 283-284: `packageSize = be32toh(packageSize) - 4` in `uint32_t`. -/
def packageSize (d0 d1 d2 d3 : Nat) : Nat :=
  (be32toh (rawPackageSize d0 d1 d2 d3) + 2 ^ 32 - 4) % 2 ^ 32

/-- The header read as a big-endian unsigned 32-bit integer, minus 4, modulo
`2^32`: the payload length as the wire protocol defines it. -/
def bigEndianPayloadLength (b0 b1 b2 b3 : Nat) : Nat :=
  (b0 * 2 ^ 24 + b1 * 2 ^ 16 + b2 * 2 ^ 8 + b3 + 2 ^ 32 - 4) % 2 ^ 32

/-! ## Declarations of connector.h and the data model -/

/-- What `connector.h` declares and the sources do not contain: the three
port constants and the members of `Packet_port30002` the reader uses. The
packet is the payload buffer itself (the source casts the buffer pointer),
a `double` is carried as its 64-bit pattern. -/
structure ConnectorH where
  PRIMARY : Int
  SECONDARY : Int
  REALTIME : Int
  fixByteOrder : List Nat → List Nat
  q_act : List Nat → Nat → Nat
  qd_act : List Nat → Nat → Nat
  cartesianInfo : List Nat → List Nat
  bit_to_bool : List Nat → Nat → Nat → Bool

/-- The robot state built per decoded frame: joint positions, joint
velocities, cartesian pose and the 36 I/O signals. -/
structure RobotState where
  jointPosition : List Nat
  jointVelocity : List Nat
  cartesianPosition : List Nat
  ios : List Bool
deriving DecidableEq, Repr

/-- `RobotState::RobotState()`: no values yet, 36 I/O signals. -/
def RobotState.new : RobotState :=
  { jointPosition := [], jointVelocity := [], cartesianPosition := [],
    ios := List.replicate 36 false }

/-- `robotState.set_IO(i, value)`: store `value` as signal `i`. -/
def set_IO (robotState : RobotState) (i : Nat) (value : Bool) : RobotState :=
  { robotState with ios := robotState.ios.set i value }

/-- A command: an opaque text payload, read with `getCommandString()`. -/
structure Command where
  commandString : String
deriving DecidableEq, Repr

/-- The error code a socket call reports. -/
inductive ErrorCode where
  | success
  | eof
  | other
deriving DecidableEq, Repr

/-- What the peer or the network delivers next on the receive side. -/
inductive Incoming where
  | data (bytes : List Nat)
  | eof
  | error
deriving DecidableEq, Repr

/-- The TCP socket: whether the descriptor is open, and what will arrive. -/
structure Socket where
  is_open : Bool
  incoming : List Incoming
deriving DecidableEq, Repr

/-- The two receive buffers of `readSocketWorker`. -/
inductive Buffer where
  | dataPackageSize
  | dataPackageContent
deriving DecidableEq, Repr

/-- The exceptions raised inside the `try` block of `readSocketWorker`. -/
inductive ReadException where
  | system_error
  | length_error_size (length : Nat)
  | length_error_content (length packageSize : Nat)
deriving DecidableEq, Repr

/-- The observable actions of the connector, in the order they happen. -/
inductive Event where
  | read_some (buf : Buffer) (length : Nat) (error : ErrorCode)
  | write_some (commandStr : String)
  | shutdown
  | close
  | notifyListeners (robotState : RobotState)
  | warnQueueSize (size : Nat)
  | portNotSupported (port : Int)
  | connectionFailed
  | readError (e : ReadException)
  | rateSleep
deriving DecidableEq, Repr

/-- The members of `Connector`, with three bookkeeping fields: whether the
dummy server runs, how many supervisor threads were started and not yet
joined, and the trace of observable actions. -/
structure Connector where
  runConnectSocketThread : Bool
  runReadSocketThread : Bool
  runWriteSocketThread : Bool
  socket : Socket
  isRunning : Bool
  host : String
  port : Int
  isDummy : Bool
  readFrequency : ℚ
  writeFrequency : ℚ
  commandQueue : List Command
  dummyRunning : Bool
  supervisorsStarted : Nat
  trace : List Event
deriving DecidableEq

/-- `Connector::Connector()` (lines 73-86). -/
def Connector.new (H : ConnectorH) : Connector :=
  { runConnectSocketThread := false
    runReadSocketThread := false
    runWriteSocketThread := false
    socket := { is_open := false, incoming := [] }
    isRunning := false
    host := "localhost"
    port := H.SECONDARY
    isDummy := true
    readFrequency := 20
    writeFrequency := 20
    commandQueue := []
    dummyRunning := false
    supervisorsStarted := 0
    trace := [] }

/-! ## Command queue and start/stop (lines 93-178) -/

/-- `Connector::addCommand` (lines 93-105): warn when the queue already
holds more than 10 commands, then push. -/
def addCommand (c : Connector) (command : Command) : Connector :=
  let c1 : Connector :=
    if c.commandQueue.length > 10 then
      { c with trace := c.trace ++ [Event.warnQueueSize c.commandQueue.length] }
    else c
  { c1 with commandQueue := c1.commandQueue ++ [command] }

/-- Lines 128-132: `while(!commandQueue.empty())` delete the front and pop. -/
def clearCommandQueue : List Command → List Command
  | [] => []
  | _ :: rest => clearCommandQueue rest

/-- `Connector::connect` (lines 107-142). -/
def connect (c : Connector) (host : String) (port : Int) (isDummy : Bool)
    (readFrequency writeFrequency : ℚ) : Connector :=
  if !c.isRunning then
    { c with
      host := host
      port := port
      isDummy := isDummy
      readFrequency := readFrequency
      writeFrequency := writeFrequency
      dummyRunning := if isDummy then true else c.dummyRunning
      commandQueue := clearCommandQueue c.commandQueue
      runConnectSocketThread := true
      supervisorsStarted := c.supervisorsStarted + 1
      isRunning := true }
  else c

/-- `Connector::disconnect` (lines 144-178). `shutdownThrows` tells whether
`socket.shutdown` raises (socket already broken), in which case `close` is
skipped by the empty `catch`. The three joins end the supervisor. -/
def disconnect (c : Connector) (shutdownThrows : Bool) : Connector :=
  if c.isRunning then
    let c1 : Connector :=
      { c with
        runConnectSocketThread := false
        runReadSocketThread := false
        runWriteSocketThread := false }
    let c2 : Connector :=
      if shutdownThrows then
        { c1 with trace := c1.trace ++ [Event.shutdown] }
      else
        { c1 with
          socket := { c1.socket with is_open := false }
          trace := c1.trace ++ [Event.shutdown, Event.close] }
    { c2 with
      supervisorsStarted := 0
      dummyRunning := if c2.isDummy then false else c2.dummyRunning
      isRunning := false }
  else c

/-- One pass of the body of `connectSocketWorker` after the retry wait
(lines 203-237), up to the start of the two workers. `peer` is what
resolving and connecting yields: `none` when an exception is thrown, else
what the peer will deliver. -/
def connectAttempt (H : ConnectorH) (c : Connector) (peer : Option (List Incoming)) : Connector :=
  if c.runConnectSocketThread then
    if c.port ≠ H.SECONDARY then
      { c with trace := c.trace ++ [Event.portNotSupported c.port] }
    else
      match peer with
      | none => { c with trace := c.trace ++ [Event.connectionFailed] }
      | some incoming =>
        { c with
          socket := { is_open := true, incoming := incoming }
          runReadSocketThread := true
          runWriteSocketThread := true }
  else c

/-! ## The socket calls -/

/-- `socket.read_some(buffer, error)` into a buffer of `cap` bytes: the bytes
received, the error code and the socket afterwards. `none` stands for a call
that never returns because nothing arrives. A closed descriptor reports an
error; end-of-stream stays pending for later reads. -/
def Socket.read_some (s : Socket) (cap : Nat) : Option (List Nat × ErrorCode × Socket) :=
  if !s.is_open then some ([], ErrorCode.other, s)
  else
    match s.incoming with
    | [] => none
    | Incoming.eof :: _ => some ([], ErrorCode.eof, s)
    | Incoming.error :: rest => some ([], ErrorCode.other, { s with incoming := rest })
    | Incoming.data bytes :: rest =>
      if bytes.length ≤ cap then
        some (bytes, ErrorCode.success, { s with incoming := rest })
      else
        some (bytes.take cap, ErrorCode.success,
          { s with incoming := Incoming.data (bytes.drop cap) :: rest })

/-- `socket.close()`. -/
def Socket.close (s : Socket) : Socket :=
  { s with is_open := false }

/-! ## readSocketWorker (lines 248-369) -/

/-- One call `robotState.set_IO(index, packet->bit_to_bool(dataPackageContent,
offset, bit))` of the six loops. -/
structure IOCall where
  index : Nat
  offset : Nat
  bit : Nat
deriving DecidableEq, Repr

/-- One loop `for (int i = first; i < last; i++)` of lines 342-347, reading
byte `offset` at bit `i % modulus`. -/
def ioLoop (first last offset modulus : Nat) : List IOCall :=
  (List.range' first (last - first)).map fun i => { index := i, offset := offset, bit := i % modulus }

/-- The six loops of lines 342-347 in program order. -/
def ioCalls : List IOCall :=
  ioLoop 0 8 452 8 ++ ioLoop 8 16 451 8 ++ ioLoop 16 18 450 2 ++
    ioLoop 18 26 456 8 ++ ioLoop 26 34 455 8 ++ ioLoop 34 36 454 2

/-- Lines 322-347: the robot state decoded from the payload buffer. -/
def decodePacket (H : ConnectorH) (dataPackageContent : List Nat) : RobotState :=
  let packet := H.fixByteOrder dataPackageContent
  let robotState : RobotState :=
    { RobotState.new with
      jointPosition := (List.range 6).map (H.q_act packet)
      jointVelocity := (List.range 6).map (H.qd_act packet)
      cartesianPosition := H.cartesianInfo packet }
  ioCalls.foldl
    (fun rs call => set_IO rs call.index (H.bit_to_bool packet call.offset call.bit))
    robotState

/-- Lines 315-355: dispatch of a received payload on the configured port. -/
def processPackage (H : ConnectorH) (c : Connector) (dataPackageContent : List Nat) : Connector :=
  if c.port = H.PRIMARY then
    { c with trace := c.trace ++ [Event.portNotSupported c.port] }
  else if c.port = H.SECONDARY then
    { c with trace := c.trace ++ [Event.notifyListeners (decodePacket H dataPackageContent)] }
  else if c.port = H.REALTIME then
    { c with trace := c.trace ++ [Event.portNotSupported c.port] }
  else c

/-- How one pass of a worker loop ends: the loop condition is checked again,
the loop is left with `break`, or a socket call never returns. -/
inductive Flow where
  | next
  | exit
  | blocked
deriving DecidableEq, Repr

/-- The `catch` of `readSocketWorker` (lines 362-365): log and go on. -/
def catchReadException (c : Connector) (e : ReadException) : Connector × Flow :=
  ({ c with trace := c.trace ++ [Event.readError e] }, Flow.next)

/-- Lines 357-360: pace the loop when a read frequency is configured. -/
def readRateSleep (c : Connector) : Connector :=
  if c.readFrequency > 0 then { c with trace := c.trace ++ [Event.rateSleep] } else c

/-- The body of the `while` loop of `readSocketWorker` (lines 254-365).
`stale` is what the 1024-byte stack buffer `dataPackageContent` holds before
the payload read; the read overwrites its first `length` bytes. -/
def readIteration (H : ConnectorH) (stale : List Nat) (c : Connector) : Connector × Flow :=
  match c.socket.read_some 4 with
  | none => (c, Flow.blocked)
  | some (dataPackageSize, error, s1) =>
    let c1 : Connector :=
      { c with
        socket := s1
        trace := c.trace ++ [Event.read_some Buffer.dataPackageSize dataPackageSize.length error] }
    match error with
    | ErrorCode.eof =>
      ({ c1 with socket := c1.socket.close, trace := c1.trace ++ [Event.close] }, Flow.exit)
    | ErrorCode.other => catchReadException c1 ReadException.system_error
    | ErrorCode.success =>
      if dataPackageSize.length ≠ 4 then
        catchReadException c1 (ReadException.length_error_size dataPackageSize.length)
      else
        let size := packageSize (dataPackageSize.getD 0 0) (dataPackageSize.getD 1 0)
          (dataPackageSize.getD 2 0) (dataPackageSize.getD 3 0)
        match c1.socket.read_some 1024 with
        | none => (c1, Flow.blocked)
        | some (content, error, s2) =>
          let c2 : Connector :=
            { c1 with
              socket := s2
              trace := c1.trace ++ [Event.read_some Buffer.dataPackageContent content.length error] }
          match error with
          | ErrorCode.eof => (c2, Flow.exit)
          | ErrorCode.other => catchReadException c2 ReadException.system_error
          | ErrorCode.success =>
            if content.length ≠ size then
              catchReadException c2 (ReadException.length_error_content content.length size)
            else
              let dataPackageContent := content ++ stale.drop content.length
              (readRateSleep (processPackage H c2 dataPackageContent), Flow.next)

/-- The loop condition of `readSocketWorker` (line 252). -/
def readLoopCondition (c : Connector) : Bool :=
  c.runReadSocketThread && c.socket.is_open

/-! ## writeSocketWorker (lines 371-410) -/

/-- The body of the `while` loop of `writeSocketWorker` (lines 379-401): pop
at most one command and hand its string to `socket.write_some`; the error
code of the write is not looked at. -/
def writeIteration (c : Connector) : Connector :=
  let c1 : Connector :=
    match c.commandQueue with
    | [] => c
    | command :: rest =>
      { c with
        commandQueue := rest
        trace := c.trace ++ [Event.write_some command.commandString] }
  if c1.writeFrequency > 0 then { c1 with trace := c1.trace ++ [Event.rateSleep] } else c1

/-- The loop condition of `writeSocketWorker` (line 375). -/
def writeLoopCondition (c : Connector) : Bool :=
  c.runWriteSocketThread && c.socket.is_open

/-! ## Runs of the connector -/

/-- The steps a connector takes: the public calls and one pass of each of
the three worker loops. -/
inductive Op where
  | connect (host : String) (port : Int) (isDummy : Bool) (readFrequency writeFrequency : ℚ)
  | disconnect (shutdownThrows : Bool)
  | addCommand (command : Command)
  | connectAttempt (peer : Option (List Incoming))
  | readIteration (stale : List Nat)
  | writeIteration

/-- The effect of one step; a worker pass happens only while its loop
condition holds. -/
def step (H : ConnectorH) (c : Connector) : Op → Connector
  | Op.connect host port isDummy rf wf => connect c host port isDummy rf wf
  | Op.disconnect shutdownThrows => disconnect c shutdownThrows
  | Op.addCommand command => addCommand c command
  | Op.connectAttempt peer => connectAttempt H c peer
  | Op.readIteration stale => if readLoopCondition c then (readIteration H stale c).1 else c
  | Op.writeIteration => if writeLoopCondition c then writeIteration c else c

/-- The state after a sequence of steps from a freshly constructed connector. -/
def run (H : ConnectorH) (ops : List Op) : Connector :=
  ops.foldl (step H) (Connector.new H)

/-! ## Projections of the trace -/

/-- The strings handed to `socket.write_some`, in order. -/
def writes (trace : List Event) : List String :=
  trace.filterMap fun e => match e with
    | Event.write_some s => some s
    | _ => none

/-- The queue sizes reported by the warning of `addCommand`, in order. -/
def queueWarnings (trace : List Event) : List Nat :=
  trace.filterMap fun e => match e with
    | Event.warnQueueSize n => some n
    | _ => none

/-- The robot states passed to `notifyListeners`, in order. -/
def notifications (trace : List Event) : List RobotState :=
  trace.filterMap fun e => match e with
    | Event.notifyListeners rs => some rs
    | _ => none

/-- The lengths returned by the reads into `dataPackageContent`, in order. -/
def payloadReads (trace : List Event) : List Nat :=
  trace.filterMap fun e => match e with
    | Event.read_some Buffer.dataPackageContent n _ => some n
    | _ => none

/-! ## Concrete headers and frames used in the evaluations -/

/-- Modelled from the spec: an instance of the declarations of `connector.h`
(not in the sources) for evaluating the reader on concrete frames. The
telemetry port is 30002 as the name `Packet_port30002` says, a bit is
extracted by its position within the byte, single-byte fields are not
touched by the byte-order fix, and the floating-point fields, whose offsets
the header fixes, are left at zero. -/
def sampleHeader : ConnectorH :=
  { PRIMARY := 30001
    SECONDARY := 30002
    REALTIME := 30003
    fixByteOrder := fun buf => buf
    q_act := fun _ _ => 0
    qd_act := fun _ _ => 0
    cartesianInfo := fun _ => List.replicate 6 0
    bit_to_bool := fun buf offset bit => (buf.getD offset 0 / 2 ^ bit) % 2 == 1 }

/-- A connector on the telemetry port whose socket is connected and will
deliver `incoming`; no pacing. -/
def connectedTo (incoming : List Incoming) : Connector :=
  run sampleHeader
    [Op.connect "robot" 30002 false 0 0, Op.connectAttempt (some incoming)]

/-- A connected connector about to receive a frame that declares length
1029, followed by 1025 payload bytes. -/
def oversizedFrame : Connector :=
  connectedTo [Incoming.data [0, 0, 4, 5], Incoming.data (List.replicate 1025 0)]

/-- A connected connector about to receive a frame that declares length 5,
followed by its single payload byte. -/
def shortFrame : Connector :=
  connectedTo [Incoming.data [0, 0, 0, 5], Incoming.data [7]]

/-- A connected connector about to receive a length header and then the end
of the stream. -/
def eofAtPayload : Connector :=
  connectedTo [Incoming.data [0, 0, 0, 5], Incoming.eof]

/-- Eleven commands. -/
def elevenCommands : List Command :=
  [⟨"c1"⟩, ⟨"c2"⟩, ⟨"c3"⟩, ⟨"c4"⟩, ⟨"c5"⟩, ⟨"c6"⟩, ⟨"c7"⟩, ⟨"c8"⟩, ⟨"c9"⟩, ⟨"c10"⟩, ⟨"c11"⟩]

/-- A running connector with one queued command: constructed, connected,
one `addCommand`. -/
def runningWithCommand : Connector :=
  run sampleHeader [Op.connect "robot" 30002 false 0 0, Op.addCommand ⟨"A"⟩]

/-! ## The I/O table as the specification writes it -/

/-- The (byte offset, bit position) pair of the lookup table for index `i`:
0-7: 452, `i % 8`; 8-15: 451, `i % 8`; 16-17: 450, `i % 2`; 18-25: 456,
`i % 8`; 26-33: 455, `i % 8`; 34-35: 454, `i % 2`. -/
def ioTable (i : Nat) : Nat × Nat :=
  if i < 8 then (452, i % 8)
  else if i < 16 then (451, i % 8)
  else if i < 18 then (450, i % 2)
  else if i < 26 then (456, i % 8)
  else if i < 34 then (455, i % 8)
  else (454, i % 2)

/-- The first index of the group of signals index `i` belongs to. -/
def groupFirst (i : Nat) : Nat :=
  if i < 8 then 0
  else if i < 16 then 8
  else if i < 18 then 16
  else if i < 26 then 18
  else if i < 34 then 26
  else 34

/-- The calls of the six loops that set signal `i`. -/
def callsFor (i : Nat) : List IOCall :=
  ioCalls.filter fun call => call.index = i

/-- Successive `addCommand` calls, one per command of `cs`. -/
def addCommands (c : Connector) (cs : List Command) : Connector :=
  cs.foldl addCommand c

set_option maxRecDepth 100000

/-! ## The length header -/

theorem le_or_left (a b : Nat) : a ≤ a ||| b :=
  Nat.le_of_testBit (by intro i h; simp [h])

theorem le_or_right (a b : Nat) : b ≤ a ||| b :=
  Nat.le_of_testBit (by intro i h; simp [h])

/-- Without sign extension the assembled word is the little-endian reading
of the four bytes. -/
theorem rawPackageSize_of_small (d0 d1 d2 d3 : Nat)
    (h0 : d0 < 128) (h1 : d1 < 128) (h2 : d2 < 128) (h3 : d3 < 256) :
    rawPackageSize d0 d1 d2 d3 = d3 * 2 ^ 24 + d2 * 2 ^ 16 + d1 * 2 ^ 8 + d0 := by
  have e3 : shl32 (charToInt d3) 24 = 2 ^ 24 * d3 := by
    simp only [shl32, charToInt]; split <;> omega
  have e2 : shl32 (charToInt d2) 16 = d2 * 2 ^ 16 := by
    simp only [shl32, charToInt, if_pos h2]; omega
  have e1 : shl32 (charToInt d1) 8 = d1 * 2 ^ 8 := by
    simp only [shl32, charToInt, if_pos h1]; omega
  have e0 : charToInt d0 = d0 := by simp only [charToInt, if_pos h0]
  have s1 : 2 ^ 24 * d3 ||| d2 * 2 ^ 16 = 2 ^ 16 * (d3 * 2 ^ 8 + d2) := by
    rw [← Nat.mul_add_lt_is_or (by omega) d3]; omega
  have s2 : 2 ^ 16 * (d3 * 2 ^ 8 + d2) ||| d1 * 2 ^ 8 = 2 ^ 8 * (d3 * 2 ^ 16 + d2 * 2 ^ 8 + d1) := by
    rw [← Nat.mul_add_lt_is_or (by omega) (d3 * 2 ^ 8 + d2)]; omega
  have s3 : 2 ^ 8 * (d3 * 2 ^ 16 + d2 * 2 ^ 8 + d1) ||| d0
      = d3 * 2 ^ 24 + d2 * 2 ^ 16 + d1 * 2 ^ 8 + d0 := by
    rw [← Nat.mul_add_lt_is_or (by omega) (d3 * 2 ^ 16 + d2 * 2 ^ 8 + d1)]; omega
  rw [rawPackageSize, e3, e2, e1, e0, s1, s2, s3]

theorem be32toh_lt (x : Nat) : be32toh x < 2 ^ 32 := by
  have a0 : x % 256 < 256 := Nat.mod_lt _ (by norm_num)
  have a1 : x / 2 ^ 8 % 256 < 256 := Nat.mod_lt _ (by norm_num)
  have a2 : x / 2 ^ 16 % 256 < 256 := Nat.mod_lt _ (by norm_num)
  have a3 : x / 2 ^ 24 % 256 < 256 := Nat.mod_lt _ (by norm_num)
  simp only [be32toh]
  omega

/-- The swapped word is at least each of its three upper bytes in place. -/
theorem be32toh_ge (x : Nat) :
    (x % 256) * 2 ^ 24 ≤ be32toh x ∧ (x / 2 ^ 8 % 256) * 2 ^ 16 ≤ be32toh x ∧
      (x / 2 ^ 16 % 256) * 2 ^ 8 ≤ be32toh x := by
  simp only [be32toh]
  omega

theorem be32toh_of_bytes (d0 d1 d2 d3 : Nat)
    (h0 : d0 < 256) (h1 : d1 < 256) (h2 : d2 < 256) (h3 : d3 < 256) :
    be32toh (d3 * 2 ^ 24 + d2 * 2 ^ 16 + d1 * 2 ^ 8 + d0)
      = d0 * 2 ^ 24 + d1 * 2 ^ 16 + d2 * 2 ^ 8 + d3 := by
  have a0 : (d3 * 2 ^ 24 + d2 * 2 ^ 16 + d1 * 2 ^ 8 + d0) % 256 = d0 := by omega
  have a1 : (d3 * 2 ^ 24 + d2 * 2 ^ 16 + d1 * 2 ^ 8 + d0) / 2 ^ 8 % 256 = d1 := by omega
  have a2 : (d3 * 2 ^ 24 + d2 * 2 ^ 16 + d1 * 2 ^ 8 + d0) / 2 ^ 16 % 256 = d2 := by omega
  have a3 : (d3 * 2 ^ 24 + d2 * 2 ^ 16 + d1 * 2 ^ 8 + d0) / 2 ^ 24 % 256 = d3 := by omega
  rw [be32toh, a0, a1, a2, a3]

/-- When none of the first three header bytes has its top bit set, the
computed payload length is the big-endian header minus 4 modulo `2^32`. -/
theorem packageSize_of_small (d0 d1 d2 d3 : Nat)
    (h0 : d0 < 128) (h1 : d1 < 128) (h2 : d2 < 128) (h3 : d3 < 256) :
    packageSize d0 d1 d2 d3 = bigEndianPayloadLength d0 d1 d2 d3 := by
  rw [packageSize, rawPackageSize_of_small d0 d1 d2 d3 h0 h1 h2 h3, bigEndianPayloadLength,
    be32toh_of_bytes d0 d1 d2 d3 (by omega) (by omega) (by omega) h3]

theorem rawPackageSize_lt (d0 d1 d2 d3 : Nat) (h0 : d0 < 256) :
    rawPackageSize d0 d1 d2 d3 < 2 ^ 32 := by
  have e0 : charToInt d0 < 2 ^ 32 := by simp only [charToInt]; split <;> omega
  have e1 : shl32 (charToInt d1) 8 < 2 ^ 32 := Nat.mod_lt _ (by norm_num)
  have e2 : shl32 (charToInt d2) 16 < 2 ^ 32 := Nat.mod_lt _ (by norm_num)
  have e3 : shl32 (charToInt d3) 24 < 2 ^ 32 := Nat.mod_lt _ (by norm_num)
  exact Nat.or_lt_two_pow (Nat.or_lt_two_pow (Nat.or_lt_two_pow e3 e2) e1) e0

/-- A swapped word of at least `2^15` leaves more than 1024 after the
subtraction of 4. -/
theorem packageSize_gt_of_swapped (d0 d1 d2 d3 : Nat)
    (h : 2 ^ 15 ≤ be32toh (rawPackageSize d0 d1 d2 d3)) : packageSize d0 d1 d2 d3 > 1024 := by
  have hlt := be32toh_lt (rawPackageSize d0 d1 d2 d3)
  simp only [packageSize]
  omega

/-- A declared payload length above 1024 is also above 1024 as the code
computes it: sign extension only adds bits to the assembled word. -/
theorem packageSize_gt_of_declared (d0 d1 d2 d3 : Nat)
    (h0 : d0 < 256) (h1 : d1 < 256) (h2 : d2 < 256) (h3 : d3 < 256)
    (h : bigEndianPayloadLength d0 d1 d2 d3 > 1024) : packageSize d0 d1 d2 d3 > 1024 := by
  have hlt := rawPackageSize_lt d0 d1 d2 d3 h0
  have hge := be32toh_ge (rawPackageSize d0 d1 d2 d3)
  by_cases s0 : d0 < 128
  · by_cases s1 : d1 < 128
    · by_cases s2 : d2 < 128
      · rw [packageSize_of_small d0 d1 d2 d3 s0 s1 s2 h3]; exact h
      · have hle : shl32 (charToInt d2) 16 ≤ rawPackageSize d0 d1 d2 d3 :=
          le_trans (le_trans (le_or_right _ _) (le_or_left _ _)) (le_or_left _ _)
        have e : shl32 (charToInt d2) 16 ≥ 0xFF800000 := by
          simp only [shl32, charToInt, if_neg s2]; omega
        have hb : rawPackageSize d0 d1 d2 d3 / 2 ^ 16 % 256 ≥ 128 := by omega
        exact packageSize_gt_of_swapped d0 d1 d2 d3 (by omega)
    · have hle : shl32 (charToInt d1) 8 ≤ rawPackageSize d0 d1 d2 d3 :=
        le_trans (le_or_right _ _) (le_or_left _ _)
      have e : shl32 (charToInt d1) 8 ≥ 0xFFFF8000 := by
        simp only [shl32, charToInt, if_neg s1]; omega
      have hb : rawPackageSize d0 d1 d2 d3 / 2 ^ 8 % 256 ≥ 128 := by omega
      exact packageSize_gt_of_swapped d0 d1 d2 d3 (by omega)
  · have hle : charToInt d0 ≤ rawPackageSize d0 d1 d2 d3 := le_or_right _ _
    have e : charToInt d0 ≥ 0xFFFFFF80 := by
      simp only [charToInt, if_neg s0]; omega
    have hb : rawPackageSize d0 d1 d2 d3 % 256 ≥ 128 := by omega
    exact packageSize_gt_of_swapped d0 d1 d2 d3 (by omega)

/-- C1, evaluated at the header 00 00 80 00: the byte 0x80 held in a signed
`char` is sign-extended before the shift, so the computed payload length is
33019, while the big-endian header minus 4 is 32764. -/
theorem packageSize_sign_extended :
    packageSize 0 0 128 0 = 33019 ∧ bigEndianPayloadLength 0 0 128 0 = 32764 := by
  decide

/-! ## The I/O loops -/

theorem callsFor_table (i : Fin 36) :
    callsFor i.val = [{ index := i.val, offset := (ioTable i.val).1, bit := (ioTable i.val).2 }] := by
  revert i; decide

/-- The signals after a run of `set_IO` calls are the signal list after
the corresponding list updates. -/
theorem foldl_set_IO_ios (v : IOCall → Bool) (calls : List IOCall) (rs : RobotState) :
    (calls.foldl (fun rs call => set_IO rs call.index (v call)) rs).ios
      = calls.foldl (fun l call => l.set call.index (v call)) rs.ios := by
  induction calls generalizing rs with
  | nil => rfl
  | cons x xs ih =>
    simp only [List.foldl_cons]
    rw [ih]
    rfl

/-- Calls for other indices leave signal `i` as it was. -/
theorem foldl_set_untouched (v : IOCall → Bool) (i : Nat) (calls : List IOCall) (l : List Bool)
    (h : calls.filter (fun call => call.index = i) = []) :
    (calls.foldl (fun l call => l.set call.index (v call)) l)[i]? = l[i]? := by
  induction calls generalizing l with
  | nil => rfl
  | cons x xs ih =>
    by_cases hx : x.index = i
    · simp [List.filter_cons, hx] at h
    · simp only [List.filter_cons, hx, decide_False] at h
      simp only [List.foldl_cons]
      rw [ih _ (by simpa using h), List.getElem?_set_ne hx]

/-- When exactly one call sets signal `i`, the signal ends with that call's
value. -/
theorem foldl_set_single (v : IOCall → Bool) (i : Nat) (call : IOCall) (calls : List IOCall)
    (l : List Bool) (hi : i < l.length)
    (h : calls.filter (fun call => call.index = i) = [call]) :
    (calls.foldl (fun l call => l.set call.index (v call)) l)[i]? = some (v call) := by
  induction calls generalizing l with
  | nil => simp at h
  | cons x xs ih =>
    by_cases hx : x.index = i
    · simp only [List.filter_cons, hx, decide_True, if_true, List.cons.injEq] at h
      simp only [List.foldl_cons]
      rw [foldl_set_untouched v i xs _ h.2, hx, h.1, List.getElem?_set_self hi]
    · simp only [List.filter_cons, hx, decide_False] at h
      simp only [List.foldl_cons]
      exact ih _ (by simpa using hi) (by simpa using h)

theorem decodePacket_ios (H : ConnectorH) (buf : List Nat) (i : Fin 36) :
    (decodePacket H buf).ios[i.val]?
      = some (H.bit_to_bool (H.fixByteOrder buf) (ioTable i.val).1 (ioTable i.val).2) := by
  have hc := callsFor_table i
  simp only [decodePacket]
  rw [foldl_set_IO_ios (fun call => H.bit_to_bool (H.fixByteOrder buf) call.offset call.bit)]
  rw [foldl_set_single _ i.val _ ioCalls _ (by simp [RobotState.new]) hc]

/-- C4: the six loops make 36 calls; for every index `i` in 0..35 exactly one
of them sets signal `i`, with the byte offset and bit position the table
gives for `i`; the decoded state holds for signal `i` the bit read there;
and the table is injective on 0..35. -/
theorem ioCalls_follow_table :
    ioCalls.length = 36 ∧
    (∀ i : Fin 36,
      callsFor i.val = [{ index := i.val, offset := (ioTable i.val).1, bit := (ioTable i.val).2 }]) ∧
    (∀ (H : ConnectorH) (buf : List Nat) (i : Fin 36),
      (decodePacket H buf).ios[i.val]?
        = some (H.bit_to_bool (H.fixByteOrder buf) (ioTable i.val).1 (ioTable i.val).2)) ∧
    (∀ i j : Fin 36, ioTable i.val = ioTable j.val → i = j) := by
  refine ⟨by decide, callsFor_table, decodePacket_ios, ?_⟩
  · intro i j h
    have hi := i.isLt
    have hj := j.isLt
    apply Fin.ext
    simp only [ioTable] at h
    split_ifs at h <;> simp only [Prod.mk.injEq] at h <;> omega

/-- C10: the bit position read for index `i` is `i` minus the first index of
its group for the groups 0-7, 8-15, 16-17 and 34-35, and that difference
plus 2 modulo 8 for the groups 18-25 and 26-33: index `18 + k` reads bit
`(k + 2) % 8` of byte 456 and index `26 + k` bit `(k + 2) % 8` of byte 455;
index 18 reads bit 2 and index 24 bit 0. -/
theorem io_bit_positions :
    (∀ i : Fin 36,
      (callsFor i.val).map (fun call => call.bit)
        = [if 18 ≤ i.val ∧ i.val < 34 then (i.val - groupFirst i.val + 2) % 8
           else i.val - groupFirst i.val]) ∧
    (∀ k : Fin 8,
      callsFor (18 + k.val) = [{ index := 18 + k.val, offset := 456, bit := (k.val + 2) % 8 }] ∧
      callsFor (26 + k.val) = [{ index := 26 + k.val, offset := 455, bit := (k.val + 2) % 8 }]) ∧
    callsFor 18 = [{ index := 18, offset := 456, bit := 2 }] ∧
    callsFor 24 = [{ index := 24, offset := 456, bit := 0 }] := by
  refine ⟨by decide, by decide, by decide, by decide⟩

/-! ## Lemmas on the queue, the trace and the steps -/

theorem writes_append (t u : List Event) : writes (t ++ u) = writes t ++ writes u := by
  simp [writes, List.filterMap_append]

theorem queueWarnings_append (t u : List Event) :
    queueWarnings (t ++ u) = queueWarnings t ++ queueWarnings u := by
  simp [queueWarnings, List.filterMap_append]

theorem addCommand_commandQueue (c : Connector) (command : Command) :
    (addCommand c command).commandQueue = c.commandQueue ++ [command] := by
  simp only [addCommand]
  split <;> rfl

theorem addCommand_writes (c : Connector) (command : Command) :
    writes (addCommand c command).trace = writes c.trace := by
  simp only [addCommand]
  split
  · simp [writes_append, writes]
  · rfl

theorem addCommand_queueWarnings (c : Connector) (command : Command) :
    queueWarnings (addCommand c command).trace
      = queueWarnings c.trace ++ (if 10 < c.commandQueue.length then [c.commandQueue.length] else []) := by
  simp only [addCommand]
  split
  · rename_i h
    simp [queueWarnings_append, queueWarnings, h]
  · rename_i h
    simp [h]

theorem addCommands_commandQueue (c : Connector) (cs : List Command) :
    (addCommands c cs).commandQueue = c.commandQueue ++ cs := by
  induction cs generalizing c with
  | nil => simp [addCommands]
  | cons x xs ih =>
    have := ih (addCommand c x)
    simp only [addCommands, List.foldl_cons] at this ⊢
    rw [this, addCommand_commandQueue]
    simp

theorem addCommands_writes (c : Connector) (cs : List Command) :
    writes (addCommands c cs).trace = writes c.trace := by
  induction cs generalizing c with
  | nil => simp [addCommands]
  | cons x xs ih =>
    have := ih (addCommand c x)
    simp only [addCommands, List.foldl_cons] at this ⊢
    rw [this, addCommand_writes]

/-- No warning is raised while the queue ends with at most 11 commands. -/
theorem addCommands_queueWarnings (c : Connector) (cs : List Command)
    (h : c.commandQueue.length + cs.length ≤ 11) :
    queueWarnings (addCommands c cs).trace = queueWarnings c.trace := by
  induction cs generalizing c with
  | nil => simp [addCommands]
  | cons x xs ih =>
    have hq := addCommand_commandQueue c x
    have := ih (addCommand c x) (by simp [hq] at h ⊢; omega)
    simp only [addCommands, List.foldl_cons] at this ⊢
    rw [this, addCommand_queueWarnings, if_neg (by simp at h; omega)]
    simp

theorem writeIteration_commandQueue (c : Connector) :
    (writeIteration c).commandQueue = c.commandQueue.tail := by
  simp only [writeIteration]
  cases hq : c.commandQueue <;> simp <;> split <;> simp [hq]

theorem writeIteration_writes (c : Connector) :
    writes (writeIteration c).trace
      = writes c.trace ++ (c.commandQueue.take 1).map (fun command => command.commandString) := by
  simp only [writeIteration]
  cases hq : c.commandQueue <;> simp <;> split <;> simp [writes_append, writes]

theorem writeIterations (k : Nat) (c : Connector) :
    (writeIteration^[k] c).commandQueue = c.commandQueue.drop k ∧
    writes (writeIteration^[k] c).trace
      = writes c.trace ++ (c.commandQueue.take k).map (fun command => command.commandString) := by
  induction k generalizing c with
  | zero => simp
  | succ n ih =>
    have h := ih (writeIteration c)
    rw [Function.iterate_succ_apply]
    rw [h.1, h.2, writeIteration_commandQueue, writeIteration_writes]
    constructor
    · simp [List.drop_succ_cons]
    · cases c.commandQueue <;> simp

theorem clearCommandQueue_eq (q : List Command) : clearCommandQueue q = [] := by
  induction q with
  | nil => rfl
  | cons x xs ih => simpa [clearCommandQueue] using ih

/-- One pass of the reader changes nothing but the socket and the trace. -/
theorem readIteration_frame (H : ConnectorH) (stale : List Nat) (c : Connector) :
    ∃ s t, (readIteration H stale c).1 = { c with socket := s, trace := t } := by
  unfold readIteration
  repeat' split
  all_goals
    simp only [catchReadException, readRateSleep, processPackage, Socket.close]
    first
      | exact ⟨_, _, rfl⟩
      | (repeat' split) <;> exact ⟨_, _, rfl⟩

/-- Enqueueing changes nothing but the queue and the trace. -/
theorem addCommand_frame (c : Connector) (command : Command) :
    ∃ q t, addCommand c command = { c with commandQueue := q, trace := t } := by
  unfold addCommand
  split <;> exact ⟨_, _, rfl⟩

/-- One pass of the writer changes nothing but the queue and the trace. -/
theorem writeIteration_frame (c : Connector) :
    ∃ q t, writeIteration c = { c with commandQueue := q, trace := t } := by
  simp only [writeIteration]
  repeat' split
  all_goals exact ⟨_, _, rfl⟩

/-- A connection attempt changes nothing but the socket, the two worker
flags and the trace. -/
theorem connectAttempt_frame (H : ConnectorH) (c : Connector) (peer : Option (List Incoming)) :
    ∃ s r w t, connectAttempt H c peer
      = { c with socket := s, runReadSocketThread := r, runWriteSocketThread := w, trace := t } := by
  unfold connectAttempt
  repeat' split
  all_goals exact ⟨_, _, _, _, rfl⟩

theorem step_invariant (H : ConnectorH) (c : Connector) (op : Op)
    (h : c.supervisorsStarted = if c.isRunning then 1 else 0) :
    (step H c op).supervisorsStarted = if (step H c op).isRunning then 1 else 0 := by
  cases op with
  | connect host port isDummy rf wf =>
    rcases Bool.eq_false_or_eq_true c.isRunning with hr | hr
    · simp only [step, connect, hr, Bool.not_true]
      simpa [hr] using h
    · simp only [step, connect, hr, Bool.not_false, if_true]
      simp [hr] at h
      simp [h]
  | disconnect b =>
    rcases Bool.eq_false_or_eq_true c.isRunning with hr | hr
    · simp only [step, disconnect, hr, if_true]
      simp
    · simp only [step, disconnect, hr]
      simpa [hr] using h
  | addCommand command =>
    obtain ⟨q, t, e⟩ := addCommand_frame c command
    simp only [step, e]
    exact h
  | connectAttempt peer =>
    obtain ⟨s, r, w, t, e⟩ := connectAttempt_frame H c peer
    simp only [step, e]
    exact h
  | readIteration stale =>
    simp only [step]
    split
    · obtain ⟨s, t, e⟩ := readIteration_frame H stale c
      simp only [e]
      exact h
    · exact h
  | writeIteration =>
    simp only [step]
    split
    · obtain ⟨q, t, e⟩ := writeIteration_frame c
      simp only [e]
      exact h
    · exact h

theorem foldl_step_invariant (H : ConnectorH) (ops : List Op) (c : Connector)
    (h : c.supervisorsStarted = if c.isRunning then 1 else 0) :
    (ops.foldl (step H) c).supervisorsStarted = if (ops.foldl (step H) c).isRunning then 1 else 0 := by
  induction ops generalizing c with
  | nil => exact h
  | cons op rest ih => exact ih _ (step_invariant H c op h)

/-- In every run the supervisor count is 1 while running and 0 otherwise. -/
theorem run_invariant (H : ConnectorH) (ops : List Op) :
    (run H ops).supervisorsStarted = if (run H ops).isRunning then 1 else 0 :=
  foldl_step_invariant H ops _ rfl

/-! ## The command queue and the writer -/

/-- C5: for commands `cs` added to an empty queue, `k` successive passes of
the writer have handed to `write_some` exactly the strings of the first `k`
commands, in order (one more command per pass), `cs.length` passes have
written all of them and leave the queue empty, and a pass on an empty queue
hands nothing to `write_some` and leaves the queue empty. -/
theorem writer_drains_in_order (c : Connector) (cs : List Command) (hq : c.commandQueue = []) :
    (∀ k : Nat,
      writes (writeIteration^[k] (addCommands c cs)).trace
        = writes c.trace ++ (cs.take k).map (fun command => command.commandString)) ∧
    writes (writeIteration^[cs.length] (addCommands c cs)).trace
      = writes c.trace ++ cs.map (fun command => command.commandString) ∧
    (writeIteration^[cs.length] (addCommands c cs)).commandQueue = [] ∧
    (∀ c0 : Connector, c0.commandQueue = [] →
      writes (writeIteration c0).trace = writes c0.trace ∧ (writeIteration c0).commandQueue = []) := by
  have hadd : (addCommands c cs).commandQueue = cs := by
    rw [addCommands_commandQueue, hq, List.nil_append]
  have hk : ∀ k : Nat,
      writes (writeIteration^[k] (addCommands c cs)).trace
        = writes c.trace ++ (cs.take k).map (fun command => command.commandString) := by
    intro k
    rw [(writeIterations k (addCommands c cs)).2, addCommands_writes, hadd]
  have hempty : (writeIteration^[cs.length] (addCommands c cs)).commandQueue = [] := by
    rw [(writeIterations cs.length (addCommands c cs)).1, hadd, List.drop_length]
  refine ⟨hk, ?_, hempty, ?_⟩
  · rw [hk cs.length, List.take_length]
  · intro c0 h0
    rw [writeIteration_writes, writeIteration_commandQueue, h0]
    simp

theorem writer_drains_in_order_witness :
    writes (writeIteration^[3] (addCommands (connectedTo []) [⟨"A"⟩, ⟨"B"⟩, ⟨"C"⟩])).trace
      = ["A", "B", "C"] ∧
    (writeIteration^[3] (addCommands (connectedTo []) [⟨"A"⟩, ⟨"B"⟩, ⟨"C"⟩])).commandQueue = [] :=
  ⟨(writer_drains_in_order (connectedTo []) [⟨"A"⟩, ⟨"B"⟩, ⟨"C"⟩] rfl).2.1,
   (writer_drains_in_order (connectedTo []) [⟨"A"⟩, ⟨"B"⟩, ⟨"C"⟩] rfl).2.2.1⟩

/-- C6 as stated fails: eleven `addCommand` calls on a fresh connector raise
no queue-size warning at all, not one at the 11th call; all eleven commands
are queued in order. -/
theorem eleven_commands_raise_no_warning :
    queueWarnings (addCommands (Connector.new sampleHeader) elevenCommands).trace = [] ∧
    (queueWarnings (addCommands (Connector.new sampleHeader) elevenCommands).trace).length ≠ 1 ∧
    (addCommands (Connector.new sampleHeader) elevenCommands).commandQueue = elevenCommands := by
  decide

/-- C6, amended: starting from an empty queue, 11 successive `addCommand`
calls raise no queue-size warning, neither do the first `k` of them for any
`k`, and the queue then holds all 11 commands in enqueue order; the warning
is raised by the 12th call, which finds 11 commands queued, and that command
is accepted as well. -/
theorem queue_warning_at_twelfth (c : Connector) (cs : List Command) (command : Command)
    (hq : c.commandQueue = []) (hn : cs.length = 11) :
    (∀ k : Nat, queueWarnings (addCommands c (cs.take k)).trace = queueWarnings c.trace) ∧
    queueWarnings (addCommands c cs).trace = queueWarnings c.trace ∧
    (addCommands c cs).commandQueue = cs ∧
    queueWarnings (addCommand (addCommands c cs) command).trace = queueWarnings c.trace ++ [11] ∧
    (addCommand (addCommands c cs) command).commandQueue = cs ++ [command] := by
  have hadd : (addCommands c cs).commandQueue = cs := by
    rw [addCommands_commandQueue, hq, List.nil_append]
  have hw : queueWarnings (addCommands c cs).trace = queueWarnings c.trace :=
    addCommands_queueWarnings c cs (by rw [hq, hn]; simp)
  refine ⟨?_, hw, hadd, ?_, ?_⟩
  · intro k
    apply addCommands_queueWarnings
    have hlen : (cs.take k).length ≤ cs.length := by
      rw [List.length_take]; exact Nat.min_le_right _ _
    rw [hq]; simp only [List.length_nil]; omega
  · rw [addCommand_queueWarnings, hw, hadd, hn]
    simp
  · rw [addCommand_commandQueue, hadd]

theorem queue_warning_at_twelfth_witness :
    queueWarnings (addCommand (addCommands (Connector.new sampleHeader) elevenCommands) ⟨"c12"⟩).trace
      = [11] :=
  (queue_warning_at_twelfth (Connector.new sampleHeader) elevenCommands ⟨"c12"⟩ rfl rfl).2.2.2.1

/-! ## connect and disconnect -/

/-- C7 as stated fails for `disconnect`: the call takes effect on a running
connector and the queued command is still in the queue afterwards. -/
theorem disconnect_keeps_queued_command :
    runningWithCommand.isRunning = true ∧
    (disconnect runningWithCommand false).isRunning = false ∧
    (disconnect runningWithCommand false).commandQueue = [⟨"A"⟩] := by
  decide

/-- C7, amended: after a `connect` call that takes effect (connector not
running) the command queue is empty, whatever it held before; `disconnect`
removes nothing from the queue, it holds the same commands after the call as
before. -/
theorem connect_clears_queue (c : Connector) (host : String) (port : Int) (isDummy : Bool)
    (readFrequency writeFrequency : ℚ) (shutdownThrows : Bool) :
    (c.isRunning = false →
      (connect c host port isDummy readFrequency writeFrequency).isRunning = true ∧
      (connect c host port isDummy readFrequency writeFrequency).commandQueue = []) ∧
    (disconnect c shutdownThrows).commandQueue = c.commandQueue := by
  constructor
  · intro h
    simp [connect, h, clearCommandQueue_eq]
  · simp only [disconnect]
    repeat' split
    all_goals rfl

theorem connect_clears_queue_witness :
    (connect (disconnect runningWithCommand false) "robot" 30002 true 20 20).commandQueue = [] :=
  ((connect_clears_queue (disconnect runningWithCommand false) "robot" 30002 true 20 20 false).1
    (by decide)).2

/-- C8: `disconnect` on a connector that is not running, a freshly
constructed one included, returns the state unchanged; `connect` on a
running connector returns the state unchanged, so no further supervisor is
started; and in every run of the connector at most one supervisor has been
started and not yet joined by a `disconnect`. -/
theorem start_stop_idempotent :
    (∀ (H : ConnectorH) (shutdownThrows : Bool),
      disconnect (Connector.new H) shutdownThrows = Connector.new H) ∧
    (∀ (c : Connector) (shutdownThrows : Bool),
      c.isRunning = false → disconnect c shutdownThrows = c) ∧
    (∀ (c : Connector) (host : String) (port : Int) (isDummy : Bool) (rf wf : ℚ),
      c.isRunning = true → connect c host port isDummy rf wf = c) ∧
    (∀ (H : ConnectorH) (ops : List Op), (run H ops).supervisorsStarted ≤ 1) := by
  refine ⟨?_, ?_, ?_, ?_⟩
  · intro H b
    rfl
  · intro c b h
    simp [disconnect, h]
  · intro c host port isDummy rf wf h
    simp [connect, h]
  · intro H ops
    rw [run_invariant]
    split <;> omega

theorem start_stop_idempotent_witness :
    disconnect (disconnect runningWithCommand false) true = disconnect runningWithCommand false ∧
    connect runningWithCommand "other" 30001 true 5 5 = runningWithCommand :=
  ⟨start_stop_idempotent.2.1 (disconnect runningWithCommand false) true (by decide),
   start_stop_idempotent.2.2.1 runningWithCommand "other" 30001 true 5 5 (by decide)⟩

/-! ## The frame reader -/

theorem notifications_append (t u : List Event) :
    notifications (t ++ u) = notifications t ++ notifications u := by
  simp [notifications, List.filterMap_append]

theorem payloadReads_append (t u : List Event) :
    payloadReads (t ++ u) = payloadReads t ++ payloadReads u := by
  simp [payloadReads, List.filterMap_append]

/-- A read never returns more bytes than the buffer holds. -/
theorem read_some_length_le (s s1 : Socket) (cap : Nat) (bytes : List Nat) (error : ErrorCode)
    (h : s.read_some cap = some (bytes, error, s1)) : bytes.length ≤ cap := by
  unfold Socket.read_some at h
  split at h
  · simp only [Option.some.injEq, Prod.mk.injEq] at h
    rw [← h.1]; simp
  · split at h
    · simp at h
    · simp only [Option.some.injEq, Prod.mk.injEq] at h
      rw [← h.1]; simp
    · simp only [Option.some.injEq, Prod.mk.injEq] at h
      rw [← h.1]; simp
    · split at h
      · simp only [Option.some.injEq, Prod.mk.injEq] at h
        rw [← h.1]; assumption
      · simp only [Option.some.injEq, Prod.mk.injEq] at h
        rw [← h.1, List.length_take]; exact Nat.min_le_left _ _

/-- A read that reports end-of-stream found the descriptor open and leaves
the socket as it was. -/
theorem read_some_eof (s s1 : Socket) (cap : Nat) (bytes : List Nat)
    (h : s.read_some cap = some (bytes, ErrorCode.eof, s1)) : s1 = s ∧ s.is_open = true := by
  unfold Socket.read_some at h
  split at h
  · simp at h
  · rename_i hopen
    split at h
    · simp at h
    · simp only [Option.some.injEq, Prod.mk.injEq] at h
      exact ⟨h.2.2.symm, by simpa using hopen⟩
    · simp at h
    · split at h <;> simp at h

/-- The pass of the reader after a header of four bytes was read without
error: the payload read and what follows it. -/
theorem readIteration_of_header (H : ConnectorH) (stale : List Nat) (c : Connector)
    (d0 d1 d2 d3 : Nat) (s1 : Socket)
    (hread : c.socket.read_some 4 = some ([d0, d1, d2, d3], ErrorCode.success, s1)) :
    readIteration H stale c =
      match s1.read_some 1024 with
      | none =>
        ({ c with
            socket := s1
            trace := c.trace ++ [Event.read_some Buffer.dataPackageSize 4 ErrorCode.success] },
          Flow.blocked)
      | some (content, error, s2) =>
        let c2 : Connector :=
          { c with
            socket := s2
            trace := c.trace ++ [Event.read_some Buffer.dataPackageSize 4 ErrorCode.success]
              ++ [Event.read_some Buffer.dataPackageContent content.length error] }
        match error with
        | ErrorCode.eof => (c2, Flow.exit)
        | ErrorCode.other => catchReadException c2 ReadException.system_error
        | ErrorCode.success =>
          if content.length ≠ packageSize d0 d1 d2 d3 then
            catchReadException c2
              (ReadException.length_error_content content.length (packageSize d0 d1 d2 d3))
          else
            (readRateSleep (processPackage H c2 (content ++ stale.drop content.length)), Flow.next) := by
  simp only [readIteration, hread]
  simp only [List.length_cons, List.length_nil, ne_eq, not_true_eq_false, if_false]
  rfl

/-- C2 as stated fails: for the frame that declares length 1029 (payload
length 1025) the pass of the reader does read the payload from the socket,
1024 bytes of it into the buffer. -/
theorem oversized_frame_is_read :
    bigEndianPayloadLength 0 0 4 5 = 1025 ∧
    payloadReads (readIteration sampleHeader (List.replicate 1024 0) oversizedFrame).1.trace
      = [1024] := by
  decide

/-- C2, amended: for every length header whose declared payload length
(frame length minus 4) is greater than 1024, one pass of the reader does
perform the payload read on the socket: there is no check of the length
before it. When nothing arrives the pass stays in that call. When the call
returns, exactly one payload read has happened, into the 1024-byte buffer,
so it received at most 1024 bytes; the frame is then rejected: on
end-of-stream the loop is left, on a read error the `catch` handler logs
it, and on received data the length comparison fails and the handler logs
the length error. In no case are listeners notified. -/
theorem oversized_frame_rejected (H : ConnectorH) (stale : List Nat) (c : Connector)
    (d0 d1 d2 d3 : Nat) (s1 : Socket)
    (hread : c.socket.read_some 4 = some ([d0, d1, d2, d3], ErrorCode.success, s1))
    (h0 : d0 < 256) (h1 : d1 < 256) (h2 : d2 < 256) (h3 : d3 < 256)
    (hsize : bigEndianPayloadLength d0 d1 d2 d3 > 1024) :
    notifications (readIteration H stale c).1.trace = notifications c.trace ∧
    (s1.read_some 1024 = none →
      (readIteration H stale c).2 = Flow.blocked ∧
      (readIteration H stale c).1.trace
        = c.trace ++ [Event.read_some Buffer.dataPackageSize 4 ErrorCode.success]) ∧
    (∀ (content : List Nat) (error : ErrorCode) (s2 : Socket),
      s1.read_some 1024 = some (content, error, s2) →
      content.length ≤ 1024 ∧
      payloadReads (readIteration H stale c).1.trace = payloadReads c.trace ++ [content.length] ∧
      (readIteration H stale c).1.socket = s2 ∧
      (readIteration H stale c).2
        = (if error = ErrorCode.eof then Flow.exit else Flow.next) ∧
      (readIteration H stale c).1.trace
        = c.trace ++ [Event.read_some Buffer.dataPackageSize 4 ErrorCode.success,
            Event.read_some Buffer.dataPackageContent content.length error]
          ++ (match error with
              | ErrorCode.eof => []
              | ErrorCode.other => [Event.readError ReadException.system_error]
              | ErrorCode.success =>
                [Event.readError
                  (ReadException.length_error_content content.length
                    (packageSize d0 d1 d2 d3))])) := by
  have hcode := packageSize_gt_of_declared d0 d1 d2 d3 h0 h1 h2 h3 hsize
  rw [readIteration_of_header H stale c d0 d1 d2 d3 s1 hread]
  cases hp : s1.read_some 1024 with
  | none =>
    refine ⟨?_, ?_, ?_⟩
    · simp [notifications_append, notifications]
    · intro _
      exact ⟨rfl, rfl⟩
    · intro content error s2 h
      simp at h
  | some r =>
    obtain ⟨content, error, s2⟩ := r
    have hle := read_some_length_le s1 s2 1024 content error hp
    have hne : content.length ≠ packageSize d0 d1 d2 d3 := by omega
    refine ⟨?_, ?_, ?_⟩
    · cases error <;>
        simp [hne, catchReadException, notifications_append, notifications]
    · intro h
      simp at h
    · intro content0 error0 s0 h
      simp only [Option.some.injEq, Prod.mk.injEq] at h
      obtain ⟨e1, e2, e3⟩ := h
      subst e1 e2 e3
      refine ⟨hle, ?_, ?_, ?_, ?_⟩
      · cases error <;>
          simp [hne, catchReadException, payloadReads_append, payloadReads]
      · cases error <;> simp [hne, catchReadException]
      · cases error <;> simp [hne, catchReadException]
      · cases error <;> simp [hne, catchReadException]

theorem oversized_frame_rejected_witness :
    payloadReads (readIteration sampleHeader (List.replicate 1024 0) oversizedFrame).1.trace
      = payloadReads oversizedFrame.trace ++ [(List.replicate 1024 0).length] ∧
    notifications (readIteration sampleHeader (List.replicate 1024 0) oversizedFrame).1.trace
      = notifications oversizedFrame.trace :=
  ⟨((oversized_frame_rejected sampleHeader (List.replicate 1024 0) oversizedFrame 0 0 4 5
      { is_open := true, incoming := [Incoming.data (List.replicate 1025 0)] }
      (by decide) (by decide) (by decide) (by decide) (by decide) (by decide)).2.2
      (List.replicate 1024 0) ErrorCode.success
      { is_open := true, incoming := [Incoming.data [0]] } (by decide)).2.1,
   (oversized_frame_rejected sampleHeader (List.replicate 1024 0) oversizedFrame 0 0 4 5
      { is_open := true, incoming := [Incoming.data (List.replicate 1025 0)] }
      (by decide) (by decide) (by decide) (by decide) (by decide) (by decide)).1⟩

/-- C3 as stated fails: for a telemetry payload of 1 byte, received as
declared, the pass of the reader calls `notifyListeners` once, with a state
whose 36 signals are read from the bytes the buffer held before. -/
theorem short_payload_is_notified :
    bigEndianPayloadLength 0 0 0 5 = 1 ∧
    (notifications
      (readIteration sampleHeader (List.replicate 1024 255) shortFrame).1.trace).length = 1 ∧
    (notifications
      (readIteration sampleHeader (List.replicate 1024 255) shortFrame).1.trace).map
        (fun rs => rs.ios) = [List.replicate 36 true] := by
  decide

/-- C3, amended: for every telemetry payload whose received length equals
its declared payload length, also one shorter than 457 bytes, one pass of
the reader on the telemetry port decodes the 1024-byte buffer (the received
bytes followed by what the buffer held before) into one RobotState and calls
`notifyListeners` with it exactly once; the length is not checked against
the offsets the decoder reads. -/
theorem payload_decoded_whatever_length (H : ConnectorH) (stale : List Nat) (c : Connector)
    (d0 d1 d2 d3 : Nat) (s1 s2 : Socket) (content : List Nat)
    (hport : c.port = H.SECONDARY) (hports : H.PRIMARY ≠ H.SECONDARY)
    (hread : c.socket.read_some 4 = some ([d0, d1, d2, d3], ErrorCode.success, s1))
    (hpayload : s1.read_some 1024 = some (content, ErrorCode.success, s2))
    (hlen : content.length = packageSize d0 d1 d2 d3) :
    (readIteration H stale c).2 = Flow.next ∧
    notifications (readIteration H stale c).1.trace
      = notifications c.trace ++ [decodePacket H (content ++ stale.drop content.length)] := by
  rw [readIteration_of_header H stale c d0 d1 d2 d3 s1 hread, hpayload]
  have hp : ¬ H.SECONDARY = H.PRIMARY := fun e => hports e.symm
  simp only [hlen, ne_eq, not_true_eq_false, if_false, true_and]
  simp only [readRateSleep, processPackage, hport, hp, if_false, if_true]
  split <;> simp [notifications_append, notifications]

theorem payload_decoded_whatever_length_witness :
    notifications (readIteration sampleHeader (List.replicate 1024 255) shortFrame).1.trace
      = notifications shortFrame.trace
        ++ [decodePacket sampleHeader ([7] ++ (List.replicate 1024 255).drop [7].length)] :=
  (payload_decoded_whatever_length sampleHeader (List.replicate 1024 255) shortFrame 0 0 0 5
    { is_open := true, incoming := [Incoming.data [7]] } { is_open := true, incoming := [] } [7]
    (by decide) (by decide) (by decide) (by decide) (by decide)).2

/-- End-of-stream at the header read: the socket is closed and the loop is
left, so the loop condition of the writer is false afterwards. -/
theorem header_eof_closes_socket (H : ConnectorH) (stale : List Nat) (c : Connector)
    (bytes : List Nat) (s1 : Socket)
    (hread : c.socket.read_some 4 = some (bytes, ErrorCode.eof, s1)) :
    (readIteration H stale c).2 = Flow.exit ∧
    (readIteration H stale c).1.socket.is_open = false ∧
    writeLoopCondition (readIteration H stale c).1 = false := by
  simp [readIteration, hread, Socket.close, writeLoopCondition]

/-- End-of-stream at the payload read: the loop is left and the socket stays
open, so the loop condition of the writer still holds when its run flag is
set. -/
theorem payload_eof_keeps_socket_open (H : ConnectorH) (stale : List Nat) (c : Connector)
    (d0 d1 d2 d3 : Nat) (s1 s2 : Socket) (content : List Nat)
    (hread : c.socket.read_some 4 = some ([d0, d1, d2, d3], ErrorCode.success, s1))
    (hpayload : s1.read_some 1024 = some (content, ErrorCode.eof, s2)) :
    (readIteration H stale c).2 = Flow.exit ∧
    (readIteration H stale c).1.socket.is_open = true ∧
    writeLoopCondition (readIteration H stale c).1 = c.runWriteSocketThread := by
  obtain ⟨e, hopen⟩ := read_some_eof s1 s2 1024 content hpayload
  rw [readIteration_of_header H stale c d0 d1 d2 d3 s1 hread, hpayload]
  subst e
  simp [writeLoopCondition, hopen]

/-- C9, evaluated on a header followed by end-of-stream at the payload read:
both loops are running, the pass of the reader leaves the loop, the socket
is still open afterwards and the loop condition of the writer still holds. -/
theorem payload_eof_leaves_socket_open :
    readLoopCondition eofAtPayload = true ∧ writeLoopCondition eofAtPayload = true ∧
    (readIteration sampleHeader (List.replicate 1024 0) eofAtPayload).2 = Flow.exit ∧
    (readIteration sampleHeader (List.replicate 1024 0) eofAtPayload).1.socket.is_open = true ∧
    writeLoopCondition (readIteration sampleHeader (List.replicate 1024 0) eofAtPayload).1
      = true := by
  decide

end ur_driver
